import Mathlib

/-!
Verification development for the GoTemplate renderer
(k8s-manifest-kit/renderer-gotemplate).

The Go sources embedded here: `sourceHolder.Validate`, `sourceHolder.LoadTemplates`,
`Values`, `DefaultCacheKey`, `FastCacheKey`, `PathOnlyCacheKey`, `newCache`
(pkg/gotemplate_support.go, pkg/gotemplate_cachekey.go, pkg/gotemplate_cache.go).
Collaborators that live outside this repository (`util.DeepMerge`,
`dump.ForHash`, `cache.DefaultKeyFunc`, the `text/template` expansion engine)
are modelled from the specification; each such definition carries a doc
comment starting with `Modelled from the spec:`.
-/

namespace GoTemplateKit

/-- A dynamic value tree, embedding Go's `any` values as they appear in
`map[string]any` value maps: scalars, sequences and string-keyed mappings.
A Go map is embedded as an association list of its entries (a Go map has no
duplicate keys; iteration order is arbitrary, which is why cache-key
derivation must be order-independent). -/
inductive Value where
  | null
  | boolean (b : Bool)
  | int (n : Int)
  | str (s : String)
  | seq (items : List Value)
  | map (entries : List (String × Value))
deriving Repr

/-- Key lookup in an embedded Go map (first matching entry). -/
def lookup (k : String) : List (String × Value) → Option Value
  | [] => none
  | (k₀, v) :: es => if k₀ = k then some v else lookup k es

/-- Whether a value is a mapping (a nested `map[string]any`). -/
def isMapping : Value → Bool
  | Value.map _ => true
  | _ => false

mutual
/-- Modelled from the spec: the per-value combination step of `util.DeepMerge`
(k8s-manifest-kit/pkg/util, not under src/). "if both `base[k]` and
`override[k]` are mappings, recurse; otherwise `override[k]` (if present)
replaces `base[k]` wholesale, including when one side is a sequence or scalar
and the other a mapping". -/
def mergeValue : Value → Value → Value
  | Value.map bs, Value.map os =>
    Value.map (mergeBase bs os ++ os.filter (fun e => (lookup e.1 bs).isNone))
  | _, o => o

/-- Modelled from the spec: the walk of `util.DeepMerge` over the base map's
entries. "Missing keys in `override` retain `base`'s value unchanged." -/
def mergeBase : List (String × Value) → List (String × Value) → List (String × Value)
  | [], _ => []
  | (k, bv) :: bs, os =>
    (match lookup k os with
      | some ov => (k, mergeValue bv ov)
      | none => (k, bv)) :: mergeBase bs os
end

/-- Modelled from the spec: `util.DeepMerge(base, override)` on two
`map[string]any` trees. It produces a fresh tree (the embedding is pure, so
non-mutation of the inputs is inherent). -/
def DeepMerge (bs os : List (String × Value)) : List (String × Value) :=
  mergeBase bs os ++ os.filter (fun e => (lookup e.1 bs).isNone)

theorem mergeValue_map_map (bs os : List (String × Value)) :
    mergeValue (Value.map bs) (Value.map os) = Value.map (DeepMerge bs os) := by
  rw [mergeValue, DeepMerge]

theorem mergeBase_nil (bs : List (String × Value)) : mergeBase bs [] = bs := by
  induction bs with
  | nil => rfl
  | cons e bs ih =>
    obtain ⟨k, bv⟩ := e
    rw [mergeBase, ih]
    rfl

theorem mergeValue_not_mapping (b o : Value) (h : isMapping o = false) :
    mergeValue b o = o := by
  cases b <;> cases o <;> first | rfl | simp [isMapping] at h

theorem lookup_append (k : String) (l₁ l₂ : List (String × Value)) :
    lookup k (l₁ ++ l₂) =
      match lookup k l₁ with
      | some v => some v
      | none => lookup k l₂ := by
  induction l₁ with
  | nil => rfl
  | cons e l₁ ih =>
    obtain ⟨k₀, v⟩ := e
    by_cases hk : k₀ = k
    · simp [lookup, hk]
    · simp [lookup, hk, ih]

theorem lookup_mergeBase (k : String) (bs os : List (String × Value)) :
    lookup k (mergeBase bs os) =
      (lookup k bs).map (fun bv =>
        match lookup k os with
        | some ov => mergeValue bv ov
        | none => bv) := by
  induction bs with
  | nil => rfl
  | cons e bs ih =>
    obtain ⟨k₀, bv⟩ := e
    by_cases hk : k₀ = k
    · subst hk
      cases h : lookup k₀ os <;> simp [mergeBase, lookup, h]
    · cases h : lookup k₀ os <;> simp [mergeBase, lookup, h, hk, ih]

theorem lookup_filter_new (k : String) (bs os : List (String × Value))
    (hb : lookup k bs = none) :
    lookup k (os.filter (fun e => (lookup e.1 bs).isNone)) = lookup k os := by
  induction os with
  | nil => rfl
  | cons e os ih =>
    obtain ⟨k₀, ov⟩ := e
    by_cases hk : k₀ = k
    · subst hk
      simp [List.filter, hb, lookup]
    · cases h : (lookup k₀ bs).isNone <;> simp [List.filter, h, lookup, hk, ih]

theorem lookup_DeepMerge (k : String) (bs os : List (String × Value)) :
    lookup k (DeepMerge bs os) =
      match lookup k bs, lookup k os with
      | some bv, some ov => some (mergeValue bv ov)
      | some bv, none => some bv
      | none, mo => mo := by
  rw [DeepMerge, lookup_append, lookup_mergeBase]
  cases hb : lookup k bs with
  | some bv => cases ho : lookup k os <;> simp [ho]
  | none => simp [lookup_filter_new k bs os hb]

/-- **C3.** `DeepMerge base {}` is `base`; wherever `override` holds a
non-mapping leaf at a key, the merged tree holds exactly `override`'s value at
that key, whatever `base` holds there; and where both sides hold mappings the
merge recurses key-by-key (the merged tree holds the `DeepMerge` of the two
sub-mappings). The inputs are values of a pure embedding, so the operation
cannot mutate them. -/
theorem deepMerge_laws :
    (∀ bs : List (String × Value), DeepMerge bs [] = bs) ∧
    (∀ (bs os : List (String × Value)) (k : String) (v : Value),
      lookup k os = some v → isMapping v = false →
      lookup k (DeepMerge bs os) = some v) ∧
    (∀ (bs os m₁ m₂ : List (String × Value)) (k : String),
      lookup k bs = some (Value.map m₁) → lookup k os = some (Value.map m₂) →
      lookup k (DeepMerge bs os) = some (Value.map (DeepMerge m₁ m₂))) := by
  refine ⟨fun bs => ?_, fun bs os k v ho hv => ?_, fun bs os m₁ m₂ k hb ho => ?_⟩
  · rw [DeepMerge, mergeBase_nil]
    simp
  · rw [lookup_DeepMerge, ho]
    cases hb : lookup k bs with
    | some bv => simp [mergeValue_not_mapping bv v hv]
    | none => simp
  · rw [lookup_DeepMerge, hb, ho]
    simp [mergeValue_map_map]

/-- Witness for C3 at concrete trees: base `a: 1, c: (x: 1, y: 2)`,
override `a: "s", c: (y: 3), d: 4`. -/
theorem deepMerge_laws_witness :
    DeepMerge [("a", Value.int 1)] [] = [("a", Value.int 1)] ∧
    lookup "a" (DeepMerge [("a", Value.int 1)] [("a", Value.str "s")])
      = some (Value.str "s") ∧
    lookup "c" (DeepMerge
        [("c", Value.map [("x", Value.int 1), ("y", Value.int 2)])]
        [("c", Value.map [("y", Value.int 3)]), ("d", Value.int 4)])
      = some (Value.map (DeepMerge [("x", Value.int 1), ("y", Value.int 2)]
          [("y", Value.int 3)])) :=
  ⟨deepMerge_laws.1 [("a", Value.int 1)],
   deepMerge_laws.2.1 [("a", Value.int 1)] [("a", Value.str "s")] "a"
     (Value.str "s") rfl rfl,
   deepMerge_laws.2.2 [("c", Value.map [("x", Value.int 1), ("y", Value.int 2)])]
     [("c", Value.map [("y", Value.int 3)]), ("d", Value.int 4)]
     [("x", Value.int 1), ("y", Value.int 2)] [("y", Value.int 3)] "c"
     rfl rfl⟩

/-! ## Errors (pkg/util/errors sentinels and the renderer's wrapped errors) -/

/-- The error values the embedded operations produce: the two validation
sentinels `utilerrors.ErrFsRequired` / `utilerrors.ErrPathEmpty`, an abstract
filesystem/parse failure, the `LoadTemplates` wrapper
`failed to parse templates (path: ...)`, and the `text/template` strict-lookup
execution error `map has no entry for key ...`. -/
inductive GoError where
  | fsRequired
  | pathEmpty
  | fsError (msg : String)
  | parseFailed (path : String) (cause : GoError)
  | missingKey (tmplName : String) (field : List String)
deriving DecidableEq, Repr

/-! ## Source validation (src/unnamed/part_002, `sourceHolder.Validate`) -/

/-- Exactly Go's `unicode.IsSpace`: the code points with Unicode property
White_Space (which is what `strings.TrimSpace` strips). -/
def isSpaceGo (c : Char) : Bool :=
  let n := c.toNat
  n = 0x20 || (0x9 ≤ n && n ≤ 0xD) || n = 0x85 || n = 0xA0 || n = 0x1680 ||
  (0x2000 ≤ n && n ≤ 0x200A) || n = 0x2028 || n = 0x2029 || n = 0x202F ||
  n = 0x205F || n = 0x3000

/-- Go's `strings.TrimSpace`: drop leading and trailing White_Space runes. -/
def trimSpaceGo (s : String) : String :=
  String.mk (((s.toList.dropWhile isSpaceGo).reverse.dropWhile isSpaceGo).reverse)

/-- An abstract read-only file collection (`fs.FS`): filename → content.
`Validate` only inspects whether the handle is nil. -/
structure FSHandle where
  files : List (String × String)
deriving DecidableEq, Repr

/-- The `Source` fields `Validate` reads: the filesystem handle (`none` embeds
a nil `fs.FS`) and the glob pattern. The `Values` function is embedded
separately (`Values`). -/
structure Source where
  FS : Option FSHandle
  Path : String
deriving DecidableEq, Repr

/-- `sourceHolder.Validate` (src/unnamed/part_002 lines 149-159): nil FS ⇒
`ErrFsRequired`; whitespace-trimmed empty path ⇒ `ErrPathEmpty`; else nil
(`none`). -/
def Validate (h : Source) : Option GoError :=
  if h.FS.isNone then some GoError.fsRequired
  else if trimSpaceGo h.Path = "" then some GoError.pathEmpty
  else none

/-- **C5 counterexample.** A Source with a non-nil file collection and the
non-empty selector `" "` does NOT pass validation, contradicting the claim
that validation fails only for a missing file collection or an empty
selector. -/
theorem validate_nonempty_path_fails :
    Validate { FS := some { files := [] }, Path := " " } = some GoError.pathEmpty ∧
    (" " : String) ≠ "" := by
  constructor
  · rfl
  · decide

/-- **C5 (amended).** Validation fails with `ErrFsRequired` iff the file
collection is missing; it fails with `ErrPathEmpty` iff the file collection is
present but the selector is empty after trimming White_Space; it passes iff
the file collection is present and the trimmed selector is non-empty. -/
theorem validate_characterization (h : Source) :
    (Validate h = some GoError.fsRequired ↔ h.FS = none) ∧
    (Validate h = some GoError.pathEmpty ↔
      h.FS ≠ none ∧ trimSpaceGo h.Path = "") ∧
    (Validate h = none ↔ h.FS ≠ none ∧ trimSpaceGo h.Path ≠ "") := by
  obtain ⟨fs, p⟩ := h
  cases fs with
  | none => simp [Validate]
  | some f =>
    by_cases hp : trimSpaceGo p = "" <;> simp [Validate, hp]

/-- **C10.** `Validate` treats a whitespace-only selector exactly like an
empty one: any non-empty path whose `TrimSpace` image is empty yields the
path-empty sentinel, the same result as `Path = ""`. -/
theorem validate_whitespace_path (f : FSHandle) (p : String)
    (_hne : p ≠ "") (hws : trimSpaceGo p = "") :
    Validate { FS := some f, Path := p } = some GoError.pathEmpty ∧
    Validate { FS := some f, Path := p } = Validate { FS := some f, Path := "" } := by
  have hempty : Validate { FS := some f, Path := "" } = some GoError.pathEmpty := rfl
  constructor
  · simp [Validate, hws]
  · rw [hempty]
    simp [Validate, hws]

/-- Witness for C10 at the one-space path. -/
theorem validate_whitespace_path_witness :
    Validate { FS := some { files := [] }, Path := " " } = some GoError.pathEmpty ∧
    Validate { FS := some { files := [] }, Path := " " }
      = Validate { FS := some { files := [] }, Path := "" } :=
  validate_whitespace_path { files := [] } " " (by decide) rfl

/-! ## The static values helper (src/unnamed/part_002, `Values`) -/

/-- The observable fields of a `context.Context` for this model: whether it is
cancelled and an optional deadline. -/
structure GoContext where
  cancelled : Bool
  deadlineMillis : Option Nat
deriving DecidableEq, Repr

/-- `Values` (src/unnamed/part_002 lines 130-136): wraps a static value map
into a value-producing function that ignores its context and never fails. -/
def Values (values : List (String × Value)) :
    GoContext → Except GoError (List (String × Value)) :=
  fun _ => Except.ok values

/-- **C9.** The function returned by `Values m` returns exactly `(m, nil)` on
every invocation: the context (cancelled or not) is ignored, no error is ever
returned, and the same value map comes back each time. -/
theorem values_constant (m : List (String × Value)) (ctx : GoContext) :
    Values m ctx = Except.ok m := rfl

/-! ## Cache keys (src/unnamed/part_002, `DefaultCacheKey` / `FastCacheKey` /
`PathOnlyCacheKey` / `newCache`) -/

/-- `TemplateSpec` (src/unnamed/part_002 lines 42-45): the cache-key input,
the selector path paired with the merged values. -/
structure TemplateSpec where
  Path : String
  Values : Value

/-- `CacheKeyFunc` (src/unnamed/part_002 line 48). -/
abbrev CacheKeyFunc := TemplateSpec → String

/-- `FastCacheKey` (src/unnamed/part_002 lines 75-79): the closure it returns
keys on the template path only, ignoring values. -/
def FastCacheKey : CacheKeyFunc := fun spec => spec.Path

/-- `PathOnlyCacheKey` (src/unnamed/part_002 lines 84-88): the closure it
returns keys on the template path only. -/
def PathOnlyCacheKey : CacheKeyFunc := fun spec => spec.Path

/-- **C7.** The selector-only key functions are value-independent: any two
specs with equal paths get equal keys from `FastCacheKey` and from
`PathOnlyCacheKey`, whatever their `Values` fields hold. -/
theorem selector_only_keys_value_independent (s₁ s₂ : TemplateSpec)
    (h : s₁.Path = s₂.Path) :
    FastCacheKey s₁ = FastCacheKey s₂ ∧ PathOnlyCacheKey s₁ = PathOnlyCacheKey s₂ :=
  ⟨h, h⟩

/-- Witness for C7: equal paths, different value trees, equal keys. -/
theorem selector_only_keys_value_independent_witness :
    ({ Path := "*.tpl", Values := Value.int 1 } : TemplateSpec).Path
      = ({ Path := "*.tpl", Values := Value.str "secret" } : TemplateSpec).Path ∧
    (FastCacheKey { Path := "*.tpl", Values := Value.int 1 }
        = FastCacheKey { Path := "*.tpl", Values := Value.str "secret" } ∧
      PathOnlyCacheKey { Path := "*.tpl", Values := Value.int 1 }
        = PathOnlyCacheKey { Path := "*.tpl", Values := Value.str "secret" }) :=
  ⟨rfl, selector_only_keys_value_independent
    { Path := "*.tpl", Values := Value.int 1 }
    { Path := "*.tpl", Values := Value.str "secret" } rfl⟩

/-- **C8.** `FastCacheKey` and `PathOnlyCacheKey` are extensionally equal: on
every spec both return the spec's `Path` string. -/
theorem fast_eq_pathOnly (spec : TemplateSpec) :
    FastCacheKey spec = PathOnlyCacheKey spec ∧ FastCacheKey spec = spec.Path :=
  ⟨rfl, rfl⟩

/-! ## The default (structural) cache key and `newCache` -/

/-- Entry order for canonicalising a mapping: compare the keys. -/
def keyLe (a b : String × Value) : Prop := a.1 ≤ b.1

instance : DecidableRel keyLe := fun a b => inferInstanceAs (Decidable (a.1 ≤ b.1))

instance : IsTotal (String × Value) keyLe := ⟨fun a b => le_total a.1 b.1⟩

instance : IsTrans (String × Value) keyLe :=
  ⟨fun _ _ _ hab hbc => le_trans hab hbc⟩

mutual
/-- Modelled from the spec: the order-normalisation inside `dump.ForHash`
(k8s.io/apimachinery's reflection dump, not under src/) — it prints map
entries in sorted key order, so the hash input is independent of Go's
arbitrary map iteration order. `canon` sorts every mapping's entries by key,
recursively. -/
def canon : Value → Value
  | Value.null => Value.null
  | Value.boolean b => Value.boolean b
  | Value.int n => Value.int n
  | Value.str s => Value.str s
  | Value.seq items => Value.seq (canonList items)
  | Value.map es => Value.map (List.insertionSort keyLe (canonEntries es))

/-- `canon` mapped over a sequence's items. -/
def canonList : List Value → List Value
  | [] => []
  | v :: vs => canon v :: canonList vs

/-- `canon` mapped over a mapping's entry values. -/
def canonEntries : List (String × Value) → List (String × Value)
  | [] => []
  | (k, v) :: es => (k, canon v) :: canonEntries es
end

mutual
/-- Modelled from the spec: the deterministic rendering of a canonical value
inside `dump.ForHash` (the exact byte format is irrelevant to the claims; only
that it is a function of the canonical structure). -/
def serializeV : Value → String
  | Value.null => "null"
  | Value.boolean b => cond b "true" "false"
  | Value.int n => toString n
  | Value.str s => "\x22" ++ s ++ "\x22"
  | Value.seq items => "[" ++ serializeL items ++ "]"
  | Value.map es => "(" ++ serializeE es ++ ")"

/-- Sequence items, comma-separated. -/
def serializeL : List Value → String
  | [] => ""
  | v :: vs => serializeV v ++ "," ++ serializeL vs

/-- Mapping entries, `key:value;` runs. -/
def serializeE : List (String × Value) → String
  | [] => ""
  | (k, v) :: es => k ++ ":" ++ serializeV v ++ ";" ++ serializeE es
end

/-- Modelled from the spec: `dump.ForHash(spec)` — "a structural,
order-independent hash of the full Template Spec (selector + merged value
tree)". The hash is modelled collision-free as the deterministic rendering of
the canonicalised spec. -/
def ForHash (spec : TemplateSpec) : String :=
  "Path:" ++ spec.Path ++ ";Values:" ++ serializeV (canon spec.Values)

/-- `DefaultCacheKey` (src/unnamed/part_002 lines 65-69): the closure it
returns hashes the whole spec with `dump.ForHash`. -/
def DefaultCacheKey : CacheKeyFunc := fun spec => ForHash spec

/-- Modelled from the spec: `cache.DefaultKeyFunc`
(k8s-manifest-kit/pkg/util/cache, not under src/) — the library-wide default
key strategy, the same structural order-independent hash of the full spec. -/
def DefaultKeyFunc : CacheKeyFunc := fun spec => ForHash spec

/-- The fields of `cache.Options` the embedded `newCache` reads: the optional
key function (nil embeds as `none`) and the TTL. -/
structure CacheOptions where
  KeyFunc : Option CacheKeyFunc
  ttlMillis : Nat

/-- The cache configuration `cache.NewRenderCache` retains; modelled from the
spec as storing the options it is given. -/
structure RenderCache where
  KeyFunc : Option CacheKeyFunc
  ttlMillis : Nat

/-- Modelled from the spec: `cache.NewRenderCache(co)` builds the cache from
the supplied options. -/
def NewRenderCache (co : CacheOptions) : RenderCache :=
  { KeyFunc := co.KeyFunc, ttlMillis := co.ttlMillis }

/-- `newCache` (src/unnamed/part_002 lines 103-117): nil options give no
cache; otherwise the options are copied and, when no key function was
supplied, the default key function is injected before building the cache. -/
def newCache (opts : Option CacheOptions) : Option RenderCache :=
  match opts with
  | none => none
  | some o =>
    let co := if o.KeyFunc.isNone then { o with KeyFunc := some DefaultKeyFunc } else o
    some (NewRenderCache co)

theorem canonEntries_eq_map (l : List (String × Value)) :
    canonEntries l = l.map (fun e => (e.1, canon e.2)) := by
  induction l with
  | nil => rfl
  | cons e l ih =>
    obtain ⟨k, v⟩ := e
    rw [canonEntries, ih]
    rfl

theorem canonEntries_keys (l : List (String × Value)) :
    (canonEntries l).map Prod.fst = l.map Prod.fst := by
  rw [canonEntries_eq_map, List.map_map]
  rfl

theorem sorted_perm_nodupKeys_eq (l₁ : List (String × Value)) :
    ∀ l₂, l₁.Perm l₂ → l₁.Sorted keyLe → l₂.Sorted keyLe →
      (l₁.map Prod.fst).Nodup → l₁ = l₂ := by
  induction l₁ with
  | nil =>
    intro l₂ hp _ _ _
    exact hp.nil_eq
  | cons a t₁ ih =>
    intro l₂ hp hs₁ hs₂ hnd
    cases l₂ with
    | nil => exact absurd hp.eq_nil (by simp)
    | cons b t₂ =>
      have hmem_a : a ∈ b :: t₂ := hp.mem_iff.mp (List.mem_cons_self a t₁)
      have hmem_b : b ∈ a :: t₁ := hp.symm.mem_iff.mp (List.mem_cons_self b t₂)
      have hle₁ : a.1 ≤ b.1 := by
        rcases List.mem_cons.mp hmem_b with h | h
        · rw [h]
        · exact (List.sorted_cons.mp hs₁).1 b h
      have hle₂ : b.1 ≤ a.1 := by
        rcases List.mem_cons.mp hmem_a with h | h
        · rw [h]
        · exact (List.sorted_cons.mp hs₂).1 a h
      have hkey : a.1 = b.1 := le_antisymm hle₁ hle₂
      have hab : a = b := by
        rcases List.mem_cons.mp hmem_b with h | h
        · exact h.symm
        · exfalso
          have hnotmem : a.1 ∉ t₁.map Prod.fst := (List.nodup_cons.mp (by simpa using hnd)).1
          exact hnotmem (hkey ▸ List.mem_map_of_mem Prod.fst h)
      subst hab
      have ht := ih t₂ hp.cons_inv (List.sorted_cons.mp hs₁).2 (List.sorted_cons.mp hs₂).2
        (List.nodup_cons.mp (by simpa using hnd)).2
      rw [ht]

theorem insertionSort_perm_nodupKeys (l₁ l₂ : List (String × Value))
    (hp : l₁.Perm l₂) (hnd : (l₁.map Prod.fst).Nodup) :
    List.insertionSort keyLe l₁ = List.insertionSort keyLe l₂ := by
  apply sorted_perm_nodupKeys_eq
  · exact ((List.perm_insertionSort keyLe l₁).trans hp).trans
      (List.perm_insertionSort keyLe l₂).symm
  · exact List.sorted_insertionSort keyLe l₁
  · exact List.sorted_insertionSort keyLe l₂
  · exact (((List.perm_insertionSort keyLe l₁).map Prod.fst).nodup_iff).mpr hnd

theorem canon_map_perm (l₁ l₂ : List (String × Value))
    (hp : l₁.Perm l₂) (hnd : (l₁.map Prod.fst).Nodup) :
    canon (Value.map l₁) = canon (Value.map l₂) := by
  rw [canon, canon]
  congr 1
  apply insertionSort_perm_nodupKeys
  · rw [canonEntries_eq_map, canonEntries_eq_map]
    exact hp.map _
  · rw [canonEntries_keys]
    exact hnd

/-- **C4.** The default cache key is a structural, order-independent hash of
the full spec, and it is injected whenever the caller supplies no key
function: (1) `newCache` on options without a key function builds the cache
with `DefaultKeyFunc`, and keeps a caller-supplied function otherwise;
(2) `DefaultCacheKey` agrees with the injected `DefaultKeyFunc` on every
spec; (3) the key is invariant under reordering the value mapping's entries,
at the top level and (4) inside a nested mapping; and the selector (5) and
the values (6) both participate in the key. -/
theorem default_cache_key_spec :
    (∀ o : CacheOptions, o.KeyFunc = none →
      newCache (some o) = some { KeyFunc := some DefaultKeyFunc, ttlMillis := o.ttlMillis }) ∧
    (∀ (o : CacheOptions) (f : CacheKeyFunc), o.KeyFunc = some f →
      newCache (some o) = some { KeyFunc := some f, ttlMillis := o.ttlMillis }) ∧
    (∀ spec : TemplateSpec, DefaultCacheKey spec = DefaultKeyFunc spec) ∧
    (∀ (p : String) (l₁ l₂ : List (String × Value)), l₁.Perm l₂ →
      (l₁.map Prod.fst).Nodup →
      DefaultCacheKey { Path := p, Values := Value.map l₁ }
        = DefaultCacheKey { Path := p, Values := Value.map l₂ }) ∧
    (∀ (p k : String) (rest l₁ l₂ : List (String × Value)), l₁.Perm l₂ →
      (l₁.map Prod.fst).Nodup →
      DefaultCacheKey { Path := p, Values := Value.map ((k, Value.map l₁) :: rest) }
        = DefaultCacheKey { Path := p, Values := Value.map ((k, Value.map l₂) :: rest) }) ∧
    (DefaultCacheKey { Path := "a", Values := Value.null }
      ≠ DefaultCacheKey { Path := "b", Values := Value.null }) ∧
    (DefaultCacheKey { Path := "a", Values := Value.int 1 }
      ≠ DefaultCacheKey { Path := "a", Values := Value.int 2 }) := by
  refine ⟨fun o h => ?_, fun o f h => ?_, fun spec => rfl,
    fun p l₁ l₂ hp hnd => ?_, fun p k rest l₁ l₂ hp hnd => ?_, ?_, ?_⟩
  · simp [newCache, NewRenderCache, h]
  · simp [newCache, NewRenderCache, h]
  · simp only [DefaultCacheKey, ForHash]
    rw [canon_map_perm l₁ l₂ hp hnd]
  · simp only [DefaultCacheKey, ForHash]
    rw [show canon (Value.map ((k, Value.map l₁) :: rest))
        = Value.map (List.insertionSort keyLe
            ((k, canon (Value.map l₁)) :: canonEntries rest)) from rfl,
      show canon (Value.map ((k, Value.map l₂) :: rest))
        = Value.map (List.insertionSort keyLe
            ((k, canon (Value.map l₂)) :: canonEntries rest)) from rfl,
      canon_map_perm l₁ l₂ hp hnd]
  · decide
  · decide

/-- Witness for C4: injecting the default on key-function-less options, and
order-independence at the concrete permuted mappings
`(a: 1, b: 2)` vs `(b: 2, a: 1)`. -/
theorem default_cache_key_spec_witness :
    newCache (some { KeyFunc := none, ttlMillis := 5 })
      = some { KeyFunc := some DefaultKeyFunc, ttlMillis := 5 } ∧
    DefaultCacheKey ⟨"*.tpl", Value.map [("a", Value.int 1), ("b", Value.int 2)]⟩
      = DefaultCacheKey ⟨"*.tpl", Value.map [("b", Value.int 2), ("a", Value.int 1)]⟩ :=
  ⟨default_cache_key_spec.1 { KeyFunc := none, ttlMillis := 5 } rfl,
   default_cache_key_spec.2.2.2.1 "*.tpl"
     [("a", Value.int 1), ("b", Value.int 2)]
     [("b", Value.int 2), ("a", Value.int 1)]
     (List.Perm.swap ("b", Value.int 2) ("a", Value.int 1) [])
     (by decide)⟩

/-! ## Lazy template loading (src/unnamed/part_002, `sourceHolder.LoadTemplates`)

The Go method body runs entirely inside `h.mu.Lock() … h.mu.Unlock()`, so
every call executes atomically and any concurrent use of one holder is
equivalent to some sequential interleaving of whole calls; a list of calls
therefore models every concurrent schedule of first use. -/

/-- `text/template`'s `missingkey` execution option: `invalid` (the default,
prints `<no value>` for a missing map key), `zero`, or `error`
(fail immediately). -/
inductive MissingKeyPolicy where
  | invalid
  | zero
  | error
deriving DecidableEq, Repr

/-- One expanded unit of a parsed template body: literal text, or a
field-chain reference `.A.B.C` into the value tree. -/
inductive Node where
  | text (s : String)
  | field (path : List String)
deriving DecidableEq, Repr

/-- One named template of a parsed set. -/
structure Tmpl where
  name : String
  body : List Node
deriving DecidableEq, Repr

/-- A compiled template set: the named templates (as produced by
`template.ParseFS`) together with the set-wide `missingkey` option
(`Template.Option` writes it to the set's shared `common` state, so one
setting governs execution of every associated template). -/
structure TemplateSet where
  missingkey : MissingKeyPolicy
  tmpls : List Tmpl
deriving DecidableEq, Repr

/-- `tmpl.Option("missingkey=error")` — returns the set with the shared
execution option replaced. -/
def TemplateSet.withOption (t : TemplateSet) (p : MissingKeyPolicy) : TemplateSet :=
  { t with missingkey := p }

/-- One `LoadTemplates` call (src/unnamed/part_002 lines 163-181), as a
transition on the holder's `templates` field. `parseFS` is the outcome
`template.ParseFS(h.FS, h.Path)` would have on this call (the filesystem is
external, so the outcome is an input of the model). Returns the call's
result, the new state, and whether the parse step ran. -/
def LoadTemplates (path : String) (parseFS : Except GoError TemplateSet)
    (templates : Option TemplateSet) :
    Except GoError TemplateSet × Option TemplateSet × Bool :=
  match templates with
  | some t => (Except.ok t, some t, false)
  | none =>
    match parseFS with
    | Except.error err => (Except.error (GoError.parseFailed path err), none, true)
    | Except.ok tmpl =>
      let t := tmpl.withOption MissingKeyPolicy.error
      (Except.ok t, some t, true)

/-- A sequence of `LoadTemplates` calls against one holder (each entry is
that call's would-be `ParseFS` outcome): final state and how many calls
executed the parse step. -/
def runCalls (path : String) :
    List (Except GoError TemplateSet) → Option TemplateSet → Option TemplateSet × Nat
  | [], st => (st, 0)
  | c :: cs, st =>
    let r := LoadTemplates path c st
    let rest := runCalls path cs r.2.1
    (rest.1, (cond r.2.2 1 0) + rest.2)

/-- How many parses a call sequence performs from the empty state: every
failing call up to the first successful one parses, the first success parses
and stores, and nothing parses after that. -/
def parsesUntilSuccess : List (Except GoError TemplateSet) → Nat
  | [] => 0
  | Except.error _ :: cs => 1 + parsesUntilSuccess cs
  | Except.ok _ :: _ => 1

theorem runCalls_stored (path : String) (cs : List (Except GoError TemplateSet))
    (t : TemplateSet) : runCalls path cs (some t) = (some t, 0) := by
  induction cs with
  | nil => rfl
  | cons c cs ih => simp [runCalls, LoadTemplates, ih]

theorem runCalls_parses (path : String) (cs : List (Except GoError TemplateSet)) :
    (runCalls path cs none).2 = parsesUntilSuccess cs := by
  induction cs with
  | nil => rfl
  | cons c cs ih =>
    cases c with
    | error e => simp [runCalls, LoadTemplates, parsesUntilSuccess, ih]
    | ok tmpl => simp [runCalls, LoadTemplates, parsesUntilSuccess, runCalls_stored]

/-- **C2 counterexample.** The parse step does NOT execute at most once per
holder: two consecutive `LoadTemplates` calls on a fresh holder whose
`ParseFS` both fail (the same transient filesystem error) each execute the
parse step — two executions, not at most one. -/
theorem loadTemplates_parses_twice :
    (runCalls "*.tpl"
      [Except.error (GoError.fsError "io"), Except.error (GoError.fsError "io")]
      none).2 = 2 := rfl

/-- **C2 (amended).** Once the `templates` field is non-nil, every subsequent
`LoadTemplates` call returns that same stored set without re-parsing and the
field never changes; the parse step runs only on calls that find the field
nil, so at most one parse ever succeeds and stores — but failed parses may
repeat until one succeeds (the exact count from a fresh holder is
`parsesUntilSuccess`). Calls are serialized by the holder's mutex, so these
call sequences cover every concurrent schedule. -/
theorem loadTemplates_once_stored :
    (∀ (path : String) (c : Except GoError TemplateSet) (t : TemplateSet),
      LoadTemplates path c (some t) = (Except.ok t, some t, false)) ∧
    (∀ (path : String) (cs : List (Except GoError TemplateSet)) (t : TemplateSet),
      runCalls path cs (some t) = (some t, 0)) ∧
    (∀ (path : String) (cs : List (Except GoError TemplateSet)),
      (runCalls path cs none).2 = parsesUntilSuccess cs) :=
  ⟨fun _ _ _ => rfl, runCalls_stored, runCalls_parses⟩

/-- **C6.** A failed `LoadTemplates` returns the wrapped parse error and
leaves the holder unchanged (nothing stored), so the next call attempts the
parse again; and a call that finds a stored result never discards it. -/
theorem loadTemplates_failure_not_sticky :
    (∀ (path : String) (e : GoError),
      LoadTemplates path (Except.error e) none
        = (Except.error (GoError.parseFailed path e), none, true)) ∧
    (∀ (path : String) (c : Except GoError TemplateSet),
      (LoadTemplates path c none).2.2 = true) ∧
    (∀ (path : String) (c : Except GoError TemplateSet) (t : TemplateSet),
      (LoadTemplates path c (some t)).2.1 = some t) :=
  ⟨fun _ _ => rfl, fun path c => by cases c <;> rfl, fun _ _ _ => rfl⟩

/-! ## Strict-lookup execution (the render executor's use of the loaded set)

The render executor itself (pkg/gotemplate.go) is not under src/; its
execution of a template against the merged values is modelled from the spec:
"applies a strict-lookup policy: expanding a template that references an
undefined value field must fail rather than silently substitute empty
content", with the `missingkey` semantics of the platform's `text/template`
engine. -/

/-- Field-chain lookup `.A.B.C` into a value tree. -/
def lookupField : Value → List String → Option Value
  | v, [] => some v
  | Value.map es, k :: ks =>
    match lookup k es with
    | some v => lookupField v ks
    | none => none
  | _, _ :: _ => none

/-- Modelled from the spec: expanding one node under a `missingkey` policy.
A defined field prints its value; an undefined field is an execution error
under `missingkey=error` and the blank `<no value>` substitution otherwise. -/
def execNode (mk : MissingKeyPolicy) (tname : String) (data : Value) :
    Node → Except GoError String
  | Node.text s => Except.ok s
  | Node.field p =>
    match lookupField data p with
    | some v => Except.ok (serializeV v)
    | none =>
      match mk with
      | MissingKeyPolicy.error => Except.error (GoError.missingKey tname p)
      | _ => Except.ok "<no value>"

/-- Modelled from the spec: expanding a template body left to right, stopping
at the first error. -/
def execBody (mk : MissingKeyPolicy) (tname : String) (data : Value) :
    List Node → Except GoError String
  | [] => Except.ok ""
  | n :: ns =>
    match execNode mk tname data n with
    | Except.error e => Except.error e
    | Except.ok s =>
      match execBody mk tname data ns with
      | Except.error e => Except.error e
      | Except.ok rest => Except.ok (s ++ rest)

/-- Modelled from the spec: expanding one template of a set under the set's
shared `missingkey` option. -/
def execTemplate (t : TemplateSet) (tm : Tmpl) (data : Value) :
    Except GoError String :=
  execBody t.missingkey tm.name data tm.body

/-- Whether an error is the strict-lookup execution error. -/
def isMissingKeyErr : GoError → Bool
  | GoError.missingKey _ _ => true
  | _ => false

theorem execBody_missing_field (tname : String) (data : Value)
    (body : List Node) (p : List String)
    (hmem : Node.field p ∈ body) (hundef : lookupField data p = none) :
    ∃ e, execBody MissingKeyPolicy.error tname data body = Except.error e ∧
      isMissingKeyErr e = true := by
  induction body with
  | nil => cases hmem
  | cons n ns ih =>
    rcases List.mem_cons.mp hmem with h | h
    · subst h
      rw [execBody, execNode, hundef]
      exact ⟨GoError.missingKey tname p, rfl, rfl⟩
    · obtain ⟨e, he, hk⟩ := ih h
      cases hn : execNode MissingKeyPolicy.error tname data n with
      | error e₀ =>
        refine ⟨e₀, ?_, ?_⟩
        · rw [execBody, hn]
        · cases n with
          | text s => simp [execNode] at hn
          | field q =>
            rw [execNode] at hn
            cases hq : lookupField data q with
            | some v => rw [hq] at hn; cases hn
            | none =>
              rw [hq] at hn
              cases hn
              rfl
      | ok s =>
        rw [execBody, hn, he]
        exact ⟨e, rfl, hk⟩

/-- **C1.** Every template set a successful `LoadTemplates` stores carries
`missingkey=error`, and under that policy expanding any template of the set
that references a value field undefined in the merged value tree fails with
the strict-lookup execution error — no output (hence no object with an
empty or blank substitution at that field) is produced. -/
theorem strict_lookup (path : String) (raw t : TemplateSet)
    (hload : (LoadTemplates path (Except.ok raw) none).1 = Except.ok t) :
    t.missingkey = MissingKeyPolicy.error ∧
    (∀ (tm : Tmpl) (data : Value) (p : List String), tm ∈ t.tmpls →
      Node.field p ∈ tm.body → lookupField data p = none →
      ∃ e, execTemplate t tm data = Except.error e ∧ isMissingKeyErr e = true) := by
  have ht : t = raw.withOption MissingKeyPolicy.error := by
    rw [LoadTemplates] at hload
    exact (Except.ok.injEq _ _).mp hload.symm
  subst ht
  refine ⟨rfl, fun tm data p _ hmem hundef => ?_⟩
  exact execBody_missing_field tm.name data tm.body p hmem hundef

/-- Witness for C1: loading the one-template set `pod.yaml ↦ {{.Name}}` and
expanding it against an empty value map. -/
theorem strict_lookup_witness :
    ((LoadTemplates "*.tpl"
        (Except.ok ⟨MissingKeyPolicy.invalid, [⟨"pod.yaml", [Node.field ["Name"]]⟩]⟩)
        none).1
      = Except.ok ⟨MissingKeyPolicy.error, [⟨"pod.yaml", [Node.field ["Name"]]⟩]⟩) ∧
    ((⟨MissingKeyPolicy.error, [⟨"pod.yaml", [Node.field ["Name"]]⟩]⟩ :
        TemplateSet).missingkey = MissingKeyPolicy.error ∧
      (∀ (tm : Tmpl) (data : Value) (p : List String),
        tm ∈ (⟨MissingKeyPolicy.error, [⟨"pod.yaml", [Node.field ["Name"]]⟩]⟩ :
          TemplateSet).tmpls →
        Node.field p ∈ tm.body → lookupField data p = none →
        ∃ e, execTemplate
            ⟨MissingKeyPolicy.error, [⟨"pod.yaml", [Node.field ["Name"]]⟩]⟩ tm data
          = Except.error e ∧ isMissingKeyErr e = true)) :=
  ⟨rfl, strict_lookup "*.tpl"
    ⟨MissingKeyPolicy.invalid, [⟨"pod.yaml", [Node.field ["Name"]]⟩]⟩
    ⟨MissingKeyPolicy.error, [⟨"pod.yaml", [Node.field ["Name"]]⟩]⟩ rfl⟩

end GoTemplateKit
